import Mathlib

/-!
Verification of the julearn typed-column transformation and
pipeline-configuration engine (`julearn/transformers/dataframe.py` and
`julearn/prepare.py`) against its natural-language specification.

Embedding conventions:

* A pandas `DataFrame` is modelled by its columns, as an association list
  `List (String × List Int)` of column name and column values (the row index
  is implicit: all tables of one pipeline run share it, and `pd.concat`
  along `axis=1` therefore amounts to list append).  Column order is the
  list order.  Duplicate names, which pandas allows after `concat`, are
  repeated entries; `findCol` returns the first match, which coincides with
  label lookup on tables satisfying the data-model invariant that column
  names are unique.
* A wrapped sklearn transformer is the capability record `Transformer`:
  its lower-cased class name, its `transform` output (an "array-like" per
  the external-interface contract, represented column-major as a list of
  value columns, so `pd.DataFrame(arr)` names them by stringified
  positions), and an optional `get_support` capability.  For
  `get_support`, only the boolean-mask view (`indices=False`) carries
  data the wrapper ever consumes; the `indices=True` result is discarded
  by the only caller that passes it, so the model lets the capability take
  the `indices` flag and return the mask.
* Python exceptions (`raise_error`, which raises `ValueError`, as well as
  `KeyError`, `AttributeError`, `ValueError` from pandas and unpacking) are
  modelled as `Except.error` with a short message naming the failure; the
  messages for configuration errors use the specification's taxonomy names.
-/

/-- A table: list of (column name, column values). -/
abbrev DF := List (String × List Int)

def colNames (df : DF) : List String := df.map (fun p => p.1)

/-- First column with the given label (pandas label lookup on unique labels). -/
def findCol : DF → String → Option (List Int)
  | [], _ => none
  | p :: rest, c => if p.1 = c then some p.2 else findCol rest c

/-- `df.loc[:, names]`: the selected columns, in the requested order, with
the requested names; `KeyError` when a requested label is absent (the
first missing label aborts, like the left-to-right lookup). -/
def locCols (df : DF) (names : List String) : Except String DF :=
  match names with
  | [] => Except.ok []
  | c :: cs =>
    match findCol df c, locCols df cs with
    | some v, .ok rest => Except.ok ((c, v) :: rest)
    | some _, .error e => Except.error e
    | none, _ => Except.error "KeyError"

/-- `df.drop(columns=names)` in the path where every dropped label exists:
keep the columns whose name is not listed. -/
def dropCols (df : DF) (names : List String) : DF :=
  match df with
  | [] => []
  | p :: rest => if p.1 ∈ names then dropCols rest names else p :: dropCols rest names

/-- `df.columns = names`: rename positionally; pandas raises `ValueError`
on a length mismatch. -/
def setColNames (df : DF) (names : List String) : Except String DF :=
  if df.length = names.length then
    Except.ok (names.zip (df.map (fun p => p.2)))
  else Except.error "ValueError: Length mismatch"

/-- `df.reindex(columns=names)`: one column per requested name, looked up in
`df` (a label absent from `df` would give an all-NaN column in pandas,
modelled as `[]`; no theorem below exercises that case). -/
def reindexCols (df : DF) (names : List String) : DF :=
  names.map (fun c => (c, (findCol df c).getD []))

/-- `index[mask]` with a boolean mask: `IndexError` unless the lengths agree. -/
def maskIndex (names : List String) (mask : List Bool) : Except String (List String) :=
  if names.length = mask.length then
    Except.ok (((names.zip mask).filter (fun p => p.2)).map (fun p => p.1))
  else Except.error "IndexError"

/-- `DataFrameTransformer.column_types` (dataframe.py). -/
def column_types : List String := ["confound", "all", "all_features", "continuous", "categorical"]

/-- Worker for `pySplit`, over character lists, cutting at every
non-overlapping occurrence of `sep`, scanning left to right — the
semantics of Python `str.split(sep)` with a nonempty separator.  The fuel
is an upper bound on the remaining characters, so the `0` fallback is
unreachable from `pySplit`; structural recursion on the fuel keeps the
function kernel-reducible. -/
def splitGo (sep : List Char) : Nat → List Char → List Char → List (List Char)
  | _, [], acc => [acc.reverse]
  | 0, rest, acc => [acc.reverse ++ rest]
  | fuel + 1, c :: rest, acc =>
    if sep.isPrefixOf (c :: rest) then
      acc.reverse :: splitGo sep fuel (List.drop (sep.length - 1) rest) []
    else splitGo sep fuel rest (c :: acc)

/-- Python `s.split(sep)` for a nonempty `sep`: always a nonempty list; the
empty string splits to `[""]`. -/
def pySplit (sep s : String) : List String :=
  (splitGo sep.data s.data.length s.data []).map (fun l => ⟨l⟩)

/-- `DataFrameTransformer._get_column_type`: `column.split(sep)`; the second
part when the split yields exactly two parts, `'continuous'` otherwise
(the source builds the pair `(parts, 'continuous')` and returns index 1,
so one part — separator absent — and three or more parts both yield the
default). -/
def _get_column_type (sep : String) (column : String) : String :=
  match pySplit sep column with
  | [_, t] => t
  | _ => "continuous"

/-- `DataFrameTransformer._get_columns_of_type`. -/
def _get_columns_of_type (sep : String) (columns : List String) (column_type : String) :
    List String :=
  if column_type = "all" then columns
  else if column_type = "all_features" then
    columns.filter (fun c => !(_get_column_type sep c == "confound"))
  else columns.filter (fun c => _get_column_type sep c == column_type)

/-- `DataFrameTransformer._get_columns_of_types`. -/
def _get_columns_of_types (sep : String) (columns : List String) (cts : List String) :
    List String :=
  cts.flatMap (fun t => _get_columns_of_type sep columns t)

/-- The `transform_column` argument: a single string or a list of strings. -/
inductive TCSpec where
  | str (s : String)
  | list (l : List String)
deriving DecidableEq

/-- Capability record of a wrapped transformer (external interface §6):
lower-cased class name, `transform` on a slice (array-like output,
column-major), optional `get_support`. -/
structure Transformer where
  name : String
  transformOut : DF → List (List Int)
  getSupport : Option (Bool → List Bool)

/-- Constructor state of `DataFrameTransformer` (dataframe.py). -/
structure DataFrameTransformer where
  transformer : Transformer
  transform_column : TCSpec
  returned_features : String
  column_type_sep : String

/-- `DataFrameTransformer._set_columns_to_transform`: resolve the selector
spec against the table's columns.  A non-keyword single string would make
`X.loc[:, s]` a `Series`, which has no `.columns` (`AttributeError`); a
non-keyword list takes `X.loc[:, l].columns`, i.e. the requested names,
with `KeyError` on an absent label.  An empty resolution raises
(`EmptySelection` in the specification's taxonomy). -/
def _set_columns_to_transform (sep : String) (tc : TCSpec) (X : DF) :
    Except String (List String) :=
  match
    (match tc with
     | .str s =>
       if column_types.contains s then
         Except.ok (_get_columns_of_type sep (colNames X) s)
       else Except.error "AttributeError"
     | .list l =>
       if l.all (fun c => column_types.contains c) then
         Except.ok (_get_columns_of_types sep (colNames X) l)
       else (locCols X l).map colNames)
  with
  | .error e => .error e
  | .ok resolved => if resolved = [] then .error "EmptySelection" else .ok resolved

/-- `DataFrameTransformer.fit`: resolve and freeze `transform_column_`, slice
the fit-time table by it (the slice is handed to the wrapped transformer's
`fit`, whose internal state change is not observable here), and return the
frozen column list, i.e. the fitted state. -/
def DataFrameTransformer.fit (w : DataFrameTransformer) (X : DF) :
    Except String (List String) :=
  match _set_columns_to_transform w.column_type_sep w.transform_column X with
  | .error e => .error e
  | .ok tc =>
    match locCols X tc with
    | .error e => .error e
    | .ok _X_transform => .ok tc

/-- The local `X_transformed` of `DataFrameTransformer.transform`:
`pd.DataFrame(self.transformer.transform(X_transform), index=...)` with
`columns` cast to `str` — the wrapped transformer's array-like output as a
table whose column names are stringified positions. -/
def wrappedOutput (w : DataFrameTransformer) (X_transform : DF) : DF :=
  (w.transformer.transformOut X_transform).enum.map (fun p => (toString p.1, p.2))

/-- `DataFrameTransformer.transform`, threaded with the fitted state
`transform_column_`.  Mirrors the source: slice the current table by the
frozen column list (the local `X_transform`), drop those columns to get
the rest (the local `X_rest`, written out as `dropCols X transform_column_`
below), run the wrapped transformer (`wrappedOutput`, the local
`X_transformed`), then reassemble per `returned_features`. -/
def DataFrameTransformer.transform (w : DataFrameTransformer)
    (transform_column_ : List String) (X : DF) : Except String DF :=
  match locCols X transform_column_ with
  | .error e => .error e
  | .ok X_transform =>
    if w.returned_features = "same" then
      match setColNames (wrappedOutput w X_transform) (colNames X_transform) with
      | .error e => .error e
      | .ok Xt => .ok (reindexCols (Xt ++ dropCols X transform_column_) (colNames X))
    else if w.returned_features = "subset" then
      match w.transformer.getSupport with
      | none => .error "UnsupportedPolicy"
      | some f =>
        match maskIndex (colNames X_transform) (f false) with
        | .error e => .error e
        | .ok names =>
          match setColNames (wrappedOutput w X_transform) names with
          | .error e => .error e
          | .ok Xt => .ok (Xt ++ dropCols X transform_column_)
    else if w.returned_features = "unknown" then
      match
        setColNames (wrappedOutput w X_transform)
          ((List.range (wrappedOutput w X_transform).length).map (fun n =>
            w.transformer.name ++ "_component:" ++ toString n ++ w.column_type_sep
              ++ "continuous"))
      with
      | .error e => .error e
      | .ok Xt => .ok (Xt ++ dropCols X transform_column_)
    else if w.returned_features = "unknown_same_type" then
      if (match w.transform_column with
          | .list l => decide (l.length > 1)
          | .str s => s == "all" || s == "all_features") then
        .error "HeterogeneousTypePolicy"
      else
        match
          setColNames (wrappedOutput w X_transform)
            ((wrappedOutput w X_transform).enum.map (fun p =>
              w.transformer.name ++ "_component:" ++ toString p.1 ++ w.column_type_sep
                ++ _get_column_type w.column_type_sep p.2.1))
        with
        | .error e => .error e
        | .ok Xt => .ok (Xt ++ dropCols X transform_column_)
    else if w.returned_features = "from_transformer" then
      .ok (dropCols X transform_column_ ++ wrappedOutput w X_transform)
    else
      .error "UnsupportedPolicy"

/-- `DataFrameTransformer.get_support`: forwards to the wrapped transformer's
`get_support` (an `AttributeError` when the capability is absent) and,
having no `return` statement, yields `None`. -/
def DataFrameTransformer.get_support (w : DataFrameTransformer) (indices : Bool) :
    Except String (Option (List Bool)) :=
  match w.transformer.getSupport with
  | some f =>
    let _discarded := f indices
    Except.ok none
  | none => Except.error "AttributeError"

/-!
Embeddings from `julearn/prepare.py`.
-/

/-- A hyperparameter value: a non-iterable scalar, a string (iterable in
Python but excluded from tunability by the `isinstance(val, str)` test), or
a list of candidates. -/
inductive HVal where
  | num (n : Int)
  | str (s : String)
  | list (l : List Int)
deriving DecidableEq

/-- The assembled pipeline, seen through its `set_params` capability: the
accumulated parameter assignments. -/
structure Pipeline where
  params : List (String × HVal)
deriving DecidableEq

/-- `pipeline.set_params(**{key: v})`: record the assignment (sklearn would
additionally validate the key against the pipeline's parameter set). -/
def Pipeline.set_params (p : Pipeline) (key : String) (v : HVal) : Pipeline :=
  ⟨p.params ++ [(key, v)]⟩

/-- `'sep'.join(parts)`. -/
def joinSep (sep : String) : List String → String
  | [] => ""
  | [x] => x
  | x :: rest => x ++ sep ++ joinSep sep rest

/-- `rename_param` (the inner function of `_prepare_hyperparams`): split the
flat name on `"__"`, rewrite the first segment per its scope, rejoin.  An
unknown scope raises (`HyperparameterScopeError` in the specification's
taxonomy).  `param.split('__')` is never empty, so the `[]` case below is
unreachable. -/
def rename_param (model_name : String) (param : String) : Except String String :=
  match pySplit "__" param with
  | [] => Except.error "HyperparameterScopeError"
  | first :: rest =>
    match
      (if first = "features" then Except.ok "dataframe_pipeline"
       else if first = "confounds" then Except.ok "confound_dataframe_pipeline"
       else if first = "target" then Except.ok "y_transformer"
       else if first = model_name then Except.ok ("dataframe_pipeline__" ++ first)
       else Except.error "HyperparameterScopeError")
    with
    | .error e => .error e
    | .ok new_first => .ok (joinSep "__" (new_first :: rest))

/-- `_prepare_hyperparams`: walk the hyperparameter mapping; an iterable
non-string value with more than one element goes into the grid under its
rewritten name; an iterable non-string value with exactly one (or zero)
elements hits `pipeline.set_param(val)` in the source — `set_param` is not
part of the pipeline capability set (sklearn pipelines expose `set_params`),
so that call raises `AttributeError`; any other value is assigned through
`set_params` under its rewritten name.  Returns the updated pipeline
(mutated in place in the source) together with `to_tune`. -/
def _prepare_hyperparams (hyperparams : List (String × HVal)) (pipeline : Pipeline)
    (model_name : String) : Except String (Pipeline × List (String × HVal)) :=
  hyperparams.foldlM
    (fun acc pv =>
      match pv.2 with
      | .list l =>
        if l.length > 1 then
          match rename_param model_name pv.1 with
          | .error e => .error e
          | .ok r => .ok (acc.1, acc.2 ++ [(r, HVal.list l)])
        else Except.error "AttributeError: set_param"
      | v =>
        match rename_param model_name pv.1 with
        | .error e => .error e
        | .ok r => .ok (acc.1.set_params r v, acc.2))
    (pipeline, [])

/-- `RepeatedKFold(n_splits=..., n_repeats=...)` as configured state. -/
structure RKFold where
  n_splits : Int
  n_repeats : Int
deriving DecidableEq

/-- Whitespace stripped by Python `int()` (the common ASCII kinds). -/
def isPySpace (c : Char) : Bool := c == ' ' || c == '\t' || c == '\n' || c == '\r'

/-- Decimal digit run to a number; `none` on a non-digit. -/
def digitsToNat (acc : Nat) : List Char → Option Nat
  | [] => some acc
  | c :: rest => if c.isDigit then digitsToNat (acc * 10 + (c.toNat - 48)) rest else none

/-- Python `int(s)`: strip surrounding whitespace, optional single sign, a
nonempty run of decimal digits (underscores between digits cannot occur
here because the argument is a fragment of a `'_'`-split; non-ASCII digits
are not modelled). -/
def pyIntParse (s : String) : Option Int :=
  match (s.data.dropWhile isPySpace).reverse.dropWhile isPySpace |>.reverse with
  | [] => none
  | '-' :: rest =>
    match rest with
    | [] => none
    | _ => (digitsToNat 0 rest).map (fun n => -(n : Int))
  | '+' :: rest =>
    match rest with
    | [] => none
    | _ => (digitsToNat 0 rest).map (fun n => (n : Int))
  | l => (digitsToNat 0 l).map (fun n => (n : Int))

/-- `name.split(':')[-1]` (`str.split` never returns an empty list, so the
default is unreachable). -/
def lastColonSegment (s : String) : String := (pySplit ":" s).getLastD ""

/-- The inner `parser` of `prepare_cv`: `n_repeats, n_folds =
cv_string.split('_')` (a `ValueError` unless exactly two fields), then
`int(field.split(':')[-1])` for each.  Both unpacking and `int` failures
surface as the specification's `CVGrammarError`. -/
def cvParser (cv_string : String) : Except String RKFold :=
  match pySplit "_" cv_string with
  | [a, b] =>
    match pyIntParse (lastColonSegment a), pyIntParse (lastColonSegment b) with
    | some n_repeats, some n_folds => Except.ok ⟨n_folds, n_repeats⟩
    | _, _ => Except.error "CVGrammarError"
  | _ => Except.error "CVGrammarError"

/-- Input to `prepare_cv`: an integer fold count or a string (already-built
splitter objects also pass `check_cv` through unchanged and are not
modelled separately). -/
inductive CVIn where
  | int (n : Int)
  | str (s : String)
deriving DecidableEq

/-- Result of `prepare_cv`. -/
inductive CVOut where
  | passthrough (n : Int)
  | rkf (r : RKFold)
deriving DecidableEq

/-- `prepare_cv`: `check_cv` accepts integers (and splitter objects)
unchanged; it raises `ValueError` on every string, so strings always reach
the fallback `parser`. -/
def prepare_cv (cv : CVIn) : Except String CVOut :=
  match cv with
  | .int n => Except.ok (.passthrough n)
  | .str s => (cvParser s).map .rkf

/-- A preprocessing step specification: a name string (resolved by the
external `get_transformer` factory) or an externally supplied transformer
instance.  Pre-built step tuples, the third accepted form, are not needed
by any claim and are omitted. -/
inductive PStep where
  | name (s : String)
  | inst (t : Transformer)

/-- `_get_confound_transformer`, parametrised by the external factory `F`
(`get_transformer`, which returns a `(transformer, returned_features)`
pair): a string is resolved through the factory; an instance (assumed to
satisfy the transformer capability set) keeps the branch default
`'unknown_same_type'`. -/
def _get_confound_transformer (F : String → Transformer × String) (conf : PStep) :
    Transformer × String :=
  match conf with
  | .name s => F s
  | .inst t => (t, "unknown_same_type")

/-- The `transform_columns` choice of `_create_preprocess_tuple`:
`remove_confound` targets both `continuous` and `confound` columns, any
other name targets `continuous` only. -/
def transformColumnsFor (trans_name : String) : TCSpec :=
  if trans_name = "remove_confound" then TCSpec.list ["continuous", "confound"]
  else TCSpec.str "continuous"

/-- `_create_preprocess_tuple`, parametrised by the factory `F`: a name is
resolved through the factory; an instance is cloned (a value copy, implicit
here) with `returned_features = 'unknown'` and named by its lower-cased
class name. -/
def _create_preprocess_tuple (F : String → Transformer × String) (step : PStep) :
    String × Transformer × String × TCSpec :=
  match step with
  | .name s => (s, (F s).1, (F s).2, transformColumnsFor s)
  | .inst t => (t.name, t, "unknown", transformColumnsFor t.name)

/-- The `returned_features` computed by the loop of
`_prepare_preprocess_confounds`: each iteration overwrites the variable
with the step's resolved policy, mapping `'unknown'` to
`'unknown_same_type'`; the initial value `'unknown_same_type'` survives
only for an empty step list. -/
def confoundReturnedFeatures (F : String → Transformer × String) (steps : List PStep) :
    String :=
  steps.foldl
    (fun _acc step =>
      let r := (_get_confound_transformer F step).2
      if r = "unknown" then "unknown_same_type" else r)
    "unknown_same_type"

/-- `_prepare_preprocess_confounds`: build the step tuples (their own
`returned_features` ignored), then stamp the loop's final policy into every
tuple (`step[:2] + (returned_features,) + (step[-1],)`). -/
def _prepare_preprocess_confounds (F : String → Transformer × String)
    (steps : List PStep) : List (String × Transformer × String × TCSpec) :=
  let returned_features := confoundReturnedFeatures F steps
  (steps.map (_create_preprocess_tuple F)).map
    (fun t => (t.1, t.2.1, returned_features, t.2.2.2))

/-- Target values as a uniformly-typed numpy array: numeric or string. -/
inductive YVals where
  | nums (l : List Int)
  | strs (l : List String)
deriving DecidableEq

/-- `np.unique(y.values).shape[0]`: the number of distinct values. -/
def nClasses : YVals → Nat
  | .nums l => l.dedup.length
  | .strs l => l.dedup.length

/-- `np.issubdtype(y.values.dtype, np.number)`. -/
def isNumericDtype : YVals → Bool
  | .nums _ => true
  | .strs _ => false

/-- The CV scheme, as far as `check_consistency` inspects it: one of the
four group-aware splitter classes, or anything else. -/
inductive CVScheme where
  | groupKFold
  | groupShuffleSplit
  | leaveOneGroupOut
  | leavePGroupsOut
  | other
deriving DecidableEq

/-- `isinstance(cv, valid_instances)` for the group-aware splitter classes. -/
def cvGroupAware : CVScheme → Bool
  | .other => false
  | _ => true

/-- The problem-type / target part of `check_consistency`, followed by the
groups / CV-scheme warning.  `preprocess_y` is abstracted to its presence;
fatal `raise_error` calls become `Except.error "InconsistentProblemType"`
(the specification's taxonomy name); `warn` calls accumulate warning
strings. -/
def check_consistency (y : YVals) (preprocess_y : Option Unit) (cv : CVScheme)
    (groups : Option Unit) (problem_type : String) : Except String (List String) :=
  match
    (if problem_type = "binary_classification" then
      if nClasses y ≠ 2 then
        match preprocess_y with
        | none => Except.error "InconsistentProblemType"
        | some _ => Except.ok ["binary: n_classes not 2, but y transformer set"]
      else Except.ok []
    else if problem_type = "multiclass_classification" then
      if nClasses y = 2 then Except.ok ["multiclass with only 2 classes"] else Except.ok []
    else
      if isNumericDtype y = false then
        match preprocess_y with
        | none => Except.error "InconsistentProblemType"
        | some _ => Except.ok ["regression: y not numeric, but y transformer set"]
      else if nClasses y = 2 then Except.ok ["regression with only 2 distinct values"]
      else Except.ok [])
  with
  | .error e => .error e
  | .ok warnings =>
    .ok (warnings ++
      (if groups.isSome && !(cvGroupAware cv) then ["groups ignored by CV strategy"] else []))

/-- A numpy array, as far as the shape validation inspects it: its shape. -/
structure NPArr where
  shape : List Nat
deriving DecidableEq

/-- `arr.ndim`. -/
def NPArr.ndim (a : NPArr) : Nat := a.shape.length

/-- `arr.shape[0]` (only read after `ndim` is known to be 1 or 2). -/
def NPArr.dim0 (a : NPArr) : Nat := a.shape.headD 0

/-- The array-mode (`df is None`) branch of `_validate_input_data`: all
inputs are numpy arrays (the `isinstance` checks hold by typing here); the
checks run in source order — X rank, y rank, X/y sample counts, then for a
supplied `confounds` its rank and sample count, then for supplied `groups`
its rank only. -/
def validate_input_arrays (X y : NPArr) (confounds groups : Option NPArr) :
    Except String Unit :=
  if ¬(X.ndim = 1 ∨ X.ndim = 2) then Except.error "InvalidInputShape: X"
  else if y.ndim ≠ 1 then Except.error "InvalidInputShape: y"
  else if X.dim0 ≠ y.dim0 then Except.error "InvalidInputShape: X vs y samples"
  else
    match confounds with
    | some c =>
      if ¬(c.ndim = 1 ∨ c.ndim = 2) then Except.error "InvalidInputShape: confounds"
      else if X.dim0 ≠ c.dim0 then
        Except.error "InvalidInputShape: X vs confounds samples"
      else
        match groups with
        | some g =>
          if g.ndim ≠ 1 then Except.error "InvalidInputShape: groups" else Except.ok ()
        | none => Except.ok ()
    | none =>
      match groups with
      | some g =>
        if g.ndim ≠ 1 then Except.error "InvalidInputShape: groups" else Except.ok ()
      | none => Except.ok ()

/-- The policy that `_prepare_preprocess_confounds` ends up stamping,
described directly rather than through the loop: the last step's resolved
policy with `'unknown'` defaulted to `'unknown_same_type'`, or
`'unknown_same_type'` for an empty step list.  Used to state the corrected
claim C7. -/
def confoundLastStepPolicy (F : String → Transformer × String) (steps : List PStep) :
    String :=
  match steps.getLast? with
  | none => "unknown_same_type"
  | some st =>
    let r := (_get_confound_transformer F st).2
    if r = "unknown" then "unknown_same_type" else r

/-- A minimal transformer instance for concrete counterexamples. -/
def dummyTransformer : Transformer := ⟨"dummy", fun _ => [], none⟩

/-- A concrete `get_transformer` factory under which two step names resolve
to different `returned_features` policies. -/
def disagreeingFactory : String → Transformer × String := fun s =>
  if s = "a" then (dummyTransformer, "same") else (dummyTransformer, "subset")

/-- A concrete shape-preserving transformer (adds one to every value) for
the wrapper witnesses. -/
def plusOneTransformer : Transformer :=
  ⟨"zscore", fun sl => sl.map (fun p => p.2.map (fun v => v + 1)), none⟩

/-- A concrete wrapper with the `same` policy over the `continuous`
selector. -/
def sameWrapper : DataFrameTransformer :=
  ⟨plusOneTransformer, TCSpec.str "continuous", "same", "__:type:__"⟩

/-- A concrete transformer that returns its slice values unchanged. -/
def pcaTransformer : Transformer := ⟨"pca", fun sl => sl.map (fun p => p.2), none⟩

/-- `unknown_same_type` wrapper over the single-type `confound` selector. -/
def pcaConfoundWrapper : DataFrameTransformer :=
  ⟨pcaTransformer, TCSpec.str "confound", "unknown_same_type", "__:type:__"⟩

/-- `unknown_same_type` wrapper over the aggregate `all` selector. -/
def pcaAllWrapper : DataFrameTransformer :=
  ⟨pcaTransformer, TCSpec.str "all", "unknown_same_type", "__:type:__"⟩

/-- `unknown_same_type` wrapper over a two-column literal selector list. -/
def pcaListWrapper : DataFrameTransformer :=
  ⟨pcaTransformer, TCSpec.list ["c__:type:__confound", "a"], "unknown_same_type",
    "__:type:__"⟩

/-!
Theorems.  Claims C10, C6, C5, C4 first.
-/

/-- C10: for every wrapped transformer that has a `get_support` capability and
every value of `indices`, the wrapper's `get_support` invokes the wrapped
transformer's `get_support` but, lacking a `return` statement, yields `None`:
the support mask is never propagated through the wrapper's own `get_support`
interface. -/
theorem wrapper_get_support_returns_none (w : DataFrameTransformer) (indices : Bool)
    (f : Bool → List Bool) (h : w.transformer.getSupport = some f) :
    DataFrameTransformer.get_support w indices = Except.ok none := by
  unfold DataFrameTransformer.get_support
  rw [h]

/-- Witness for C10 at a concrete wrapper whose transformer has `get_support`. -/
theorem wrapper_get_support_returns_none_witness :
    DataFrameTransformer.get_support
      ⟨⟨"selector", fun sl => sl.map (fun p => p.2), some (fun _ => [true, false])⟩,
        TCSpec.str "all", "subset", "__:type:__"⟩ true = Except.ok none :=
  wrapper_get_support_returns_none _ true _ rfl


/-- C6 counterexample: on a column name containing the separator twice, the
code does not split on the last occurrence (that rule would give tag
`categorical`, the text after the last separator); `str.split` cuts at
every occurrence, three parts result, and the tag defaults to
`continuous`. -/
theorem get_column_type_not_last_occurrence :
    _get_column_type "__:type:__" "a__:type:__confound__:type:__categorical" = "continuous"
    ∧ (pySplit "__:type:__" "a__:type:__confound__:type:__categorical").getLastD ""
        = "categorical"
    ∧ ("continuous" : String) ≠ "categorical" :=
  ⟨by decide, by decide, by decide⟩

/-- C6 amended: decoding splits on every occurrence of the separator; when
exactly two parts result the tag is the second part, otherwise (separator
absent, or occurring more than once) the tag defaults to `continuous`; in
particular the round-trip recovers the tag whenever the split of the
encoded name is exactly `[base, tag]`, e.g. for every recognized tag on a
separator-free base such as `age`. -/
theorem get_column_type_split_behavior :
    (∀ column a b : String, pySplit "__:type:__" column = [a, b] →
        _get_column_type "__:type:__" column = b)
    ∧ (∀ column : String, (pySplit "__:type:__" column).length ≠ 2 →
        _get_column_type "__:type:__" column = "continuous")
    ∧ (∀ base tag : String,
        pySplit "__:type:__" (base ++ "__:type:__" ++ tag) = [base, tag] →
        _get_column_type "__:type:__" (base ++ "__:type:__" ++ tag) = tag)
    ∧ (∀ tag ∈ (["confound", "continuous", "categorical"] : List String),
        _get_column_type "__:type:__" ("age" ++ "__:type:__" ++ tag) = tag) := by
  have h2 : ∀ column a b : String, pySplit "__:type:__" column = [a, b] →
      _get_column_type "__:type:__" column = b := by
    intro column a b h
    unfold _get_column_type
    rw [h]
  refine ⟨h2, ?_, fun base tag h => h2 _ _ _ h, by decide⟩
  intro column h
  unfold _get_column_type
  rcases hp : pySplit "__:type:__" column with _ | ⟨x, _ | ⟨y, _ | ⟨z, r⟩⟩⟩
  · rfl
  · rfl
  · rw [hp] at h
    simp at h
  · rfl

/-- Witness for the universally quantified parts of the C6 amendment at a
concrete encoded column name. -/
theorem get_column_type_split_behavior_witness :
    _get_column_type "__:type:__" "age__:type:__confound" = "confound" :=
  get_column_type_split_behavior.1 "age__:type:__confound" "age" "confound" (by decide)

/-- C5 counterexample: the fallback grammar does not fix the field names; a
string whose fields are not named `repeat`/`nfolds` (it does not even start
with `repeat:`) is parsed successfully instead of failing with
`CVGrammarError`. -/
theorem prepare_cv_accepts_unnamed_fields :
    prepare_cv (.str "thing:3_other:4") = Except.ok (.rkf ⟨4, 3⟩)
    ∧ "thing:3_other:4".data.take 7 ≠ "repeat:".data :=
  ⟨rfl, by decide⟩

/-- C5 amended: a string is accepted by the fallback parser iff it splits on
`'_'` into exactly two fields whose substrings after the last `':'` both
parse as integers — the field names `repeat`/`nfolds` are never checked;
`n_repeats` is taken from the first field and `n_splits` from the second.
Every other string fails with `CVGrammarError`. -/
theorem prepare_cv_fallback_grammar (s : String) :
    (∃ a b n_repeats n_folds,
        pySplit "_" s = [a, b]
        ∧ pyIntParse (lastColonSegment a) = some n_repeats
        ∧ pyIntParse (lastColonSegment b) = some n_folds
        ∧ prepare_cv (.str s) = Except.ok (.rkf ⟨n_folds, n_repeats⟩))
    ∨ ((∀ a b, pySplit "_" s = [a, b] →
          pyIntParse (lastColonSegment a) = none ∨ pyIntParse (lastColonSegment b) = none)
        ∧ prepare_cv (.str s) = Except.error "CVGrammarError") := by
  rcases hs : pySplit "_" s with _ | ⟨a, _ | ⟨b, _ | ⟨c, rest⟩⟩⟩
  · right
    refine ⟨?_, ?_⟩
    · intro a' b' h
      exact List.noConfusion h
    · simp [prepare_cv, cvParser, hs, Except.map]
  · right
    refine ⟨?_, ?_⟩
    · intro a' b' h
      injection h with _ h2
      exact List.noConfusion h2
    · simp [prepare_cv, cvParser, hs, Except.map]
  · rcases hra : pyIntParse (lastColonSegment a) with _ | r
    · right
      refine ⟨?_, ?_⟩
      · intro a' b' h
        injection h with h1 h2
        injection h2 with h2 _
        subst h1
        subst h2
        exact Or.inl hra
      · simp [prepare_cv, cvParser, hs, hra, Except.map]
    · rcases hrb : pyIntParse (lastColonSegment b) with _ | f
      · right
        refine ⟨?_, ?_⟩
        · intro a' b' h
          injection h with h1 h2
          injection h2 with h2 _
          subst h1
          subst h2
          exact Or.inr hrb
        · simp [prepare_cv, cvParser, hs, hra, hrb, Except.map]
      · left
        refine ⟨a, b, r, f, rfl, hra, hrb, ?_⟩
        simp [prepare_cv, cvParser, hs, hra, hrb, Except.map]
  · right
    refine ⟨?_, ?_⟩
    · intro a' b' h
      injection h with _ h2
      injection h2 with _ h3
      exact List.noConfusion h3
    · simp [prepare_cv, cvParser, hs, Except.map]

/-- Witness for the C5 amendment at a concrete well-formed grammar string. -/
theorem prepare_cv_fallback_grammar_witness :
    prepare_cv (.str "repeat:2_nfolds:3") = Except.ok (.rkf ⟨3, 2⟩) := by
  rcases prepare_cv_fallback_grammar "repeat:2_nfolds:3" with
    ⟨a, b, r, f, hsplit, hr, hf, hok⟩ | ⟨hfail, _⟩
  · have hab : ([a, b] : List String) = ["repeat:2", "nfolds:3"] := by
      rw [← hsplit]; decide
    injection hab with h1 h2
    injection h2 with h2 _
    subst h1
    subst h2
    have hr2 : (some r : Option Int) = some 2 := by rw [← hr]; decide
    have hf3 : (some f : Option Int) = some 3 := by rw [← hf]; decide
    injection hr2 with hr2
    injection hf3 with hf3
    subst hr2
    subst hf3
    exact hok
  · have h := hfail "repeat:2" "nfolds:3" (by decide)
    rcases h with h | h
    · exact absurd h (by decide)
    · exact absurd h (by decide)

/-- C4: a singleton iterable hyperparameter value reaches
`pipeline.set_param(val)` in the source — a method absent from the pipeline
capability set (sklearn pipelines expose `set_params`), called without the
rewritten parameter name — so instead of being applied as a fixed
assignment it raises; multi-element iterables go into the grid and scalars
are applied through `set_params` under their rewritten paths as claimed. -/
theorem prepare_hyperparams_single_element_crashes :
    _prepare_hyperparams [("features__impute__n_neighbors", HVal.list [5])] ⟨[]⟩ "svm"
      = Except.error "AttributeError: set_param"
    ∧ _prepare_hyperparams
        [("svm__C", HVal.list [1, 2, 3]), ("features__impute__n_neighbors", HVal.num 5)]
        ⟨[]⟩ "svm"
      = Except.ok (⟨[("dataframe_pipeline__impute__n_neighbors", HVal.num 5)]⟩,
          [("dataframe_pipeline__svm__C", HVal.list [1, 2, 3])]) :=
  ⟨rfl, rfl⟩

/-!
Claims C9, C8, C7.
-/

/-- C9 counterexample: `groups` whose sample count (5) differs from `X`'s (3)
passes the array-mode validation, contrary to the claim that any mismatched
sample count fails; only the rank of `groups` is checked. -/
theorem validate_input_arrays_ignores_groups_length :
    validate_input_arrays ⟨[3, 2]⟩ ⟨[3]⟩ none (some ⟨[5]⟩) = Except.ok ()
    ∧ (5 : Nat) ≠ 3 :=
  ⟨rfl, by decide⟩

/-- C9 amended: array-mode validation succeeds exactly when X has rank 1 or
2, y has rank 1 and X's sample count, a supplied `confounds` has rank 1 or
2 and X's sample count, and a supplied `groups` has rank 1 — the sample
count of `groups` is never compared to X's. -/
theorem validate_input_arrays_shape_conditions (X y : NPArr) (c g : Option NPArr) :
    validate_input_arrays X y c g = Except.ok () ↔
      ((X.ndim = 1 ∨ X.ndim = 2) ∧ y.ndim = 1 ∧ X.dim0 = y.dim0
        ∧ (∀ cc, c = some cc → (cc.ndim = 1 ∨ cc.ndim = 2) ∧ X.dim0 = cc.dim0)
        ∧ (∀ gg, g = some gg → gg.ndim = 1)) := by
  unfold validate_input_arrays
  cases c <;> cases g <;> split_ifs <;> simp_all
  all_goals (split_ifs <;> simp_all)
  all_goals tauto

/-- Witness for the C9 amendment: a well-shaped array-mode input validates. -/
theorem validate_input_arrays_shape_conditions_witness :
    validate_input_arrays ⟨[10, 3]⟩ ⟨[10]⟩ none none = Except.ok () :=
  (validate_input_arrays_shape_conditions ⟨[10, 3]⟩ ⟨[10]⟩ none none).mpr
    ⟨Or.inr rfl, rfl, rfl, by simp, by simp⟩

/-- C8: for a binary-classification problem type the consistency check fails
fatally iff the number of distinct target values differs from 2 and no
target transform is configured; with a target transform configured it
instead succeeds and emits the warning. -/
theorem check_consistency_binary (y : YVals) (py : Option Unit) (cv : CVScheme)
    (g : Option Unit) :
    ((∃ e, check_consistency y py cv g "binary_classification" = Except.error e) ↔
      (nClasses y ≠ 2 ∧ py = none))
    ∧ (nClasses y ≠ 2 → py ≠ none →
        ∃ ws, check_consistency y py cv g "binary_classification" = Except.ok ws
          ∧ "binary: n_classes not 2, but y transformer set" ∈ ws) := by
  unfold check_consistency
  by_cases h : nClasses y = 2 <;> cases py <;> simp_all

/-- Witness for C8: three distinct target values fail without a target
transform and only warn with one. -/
theorem check_consistency_binary_witness :
    (∃ e, check_consistency (.nums [0, 1, 2]) none .other none "binary_classification"
        = Except.error e)
    ∧ (∃ ws,
        check_consistency (.nums [0, 1, 2]) (some ()) .other none "binary_classification"
          = Except.ok ws
        ∧ "binary: n_classes not 2, but y transformer set" ∈ ws) :=
  ⟨(check_consistency_binary (.nums [0, 1, 2]) none .other none).1.mpr ⟨by decide, rfl⟩,
   (check_consistency_binary (.nums [0, 1, 2]) (some ()) .other none).2 (by decide)
     (by simp)⟩

/-- Folding a function that ignores its accumulator returns the image of the
last element, or the start value on an empty list. -/
theorem foldl_const_fun (g : PStep → String) (a : String) (steps : List PStep) :
    steps.foldl (fun _ s => g s) a
      = (match steps.getLast? with
         | none => a
         | some st => g st) := by
  induction steps generalizing a with
  | nil => rfl
  | cons st rest ih =>
    rw [List.foldl_cons, ih]
    cases rest with
    | nil => simp
    | cons r rs =>
      rw [List.getLast?_cons_cons]
      cases hl : (r :: rs).getLast? with
      | none => simp at hl
      | some st2 => rfl

/-- C7 counterexample: two confound steps whose resolved policies differ
(`same` vs `subset`) are accepted without any agreement check, and the last
step's policy is silently stamped into every returned tuple. -/
theorem prepare_preprocess_confounds_no_agreement_check :
    (_get_confound_transformer disagreeingFactory (.name "a")).2 = "same"
    ∧ (_get_confound_transformer disagreeingFactory (.name "b")).2 = "subset"
    ∧ _prepare_preprocess_confounds disagreeingFactory [.name "a", .name "b"]
        = [("a", dummyTransformer, "subset", TCSpec.str "continuous"),
           ("b", dummyTransformer, "subset", TCSpec.str "continuous")] :=
  ⟨rfl, rfl, rfl⟩

/-- C7 amended: every tuple returned by the confound-directed builder carries
one single policy, namely the policy the last step resolves to (with
`'unknown'` defaulted to `'unknown_same_type'`; `'unknown_same_type'` for
an empty list); agreement between the steps' policies is not checked or
enforced. -/
theorem prepare_preprocess_confounds_policy (F : String → Transformer × String)
    (steps : List PStep) :
    confoundReturnedFeatures F steps = confoundLastStepPolicy F steps
    ∧ ∀ tup ∈ _prepare_preprocess_confounds F steps,
        tup.2.2.1 = confoundLastStepPolicy F steps := by
  have hfold := foldl_const_fun
    (fun st =>
      let r := (_get_confound_transformer F st).2
      if r = "unknown" then "unknown_same_type" else r)
    "unknown_same_type" steps
  refine ⟨hfold, ?_⟩
  intro tup htup
  simp only [_prepare_preprocess_confounds, List.mem_map] at htup
  rcases htup with ⟨t0, ht0, rfl⟩
  simpa using hfold

/-- Witness for the C7 amendment: a single instance step resolves to the
branch default policy. -/
theorem prepare_preprocess_confounds_policy_witness :
    confoundReturnedFeatures disagreeingFactory [PStep.inst dummyTransformer]
      = "unknown_same_type" :=
  ((prepare_preprocess_confounds_policy disagreeingFactory
      [PStep.inst dummyTransformer]).1).trans rfl

/-!
Helper lemmas on the table operations, for claims C1 and C2.
-/

/-- Slicing depends only on the looked-up columns: two tables agreeing on
every requested label slice identically. -/
theorem locCols_congr (B B' : DF) (names : List String)
    (h : ∀ c ∈ names, findCol B' c = findCol B c) :
    locCols B' names = locCols B names := by
  induction names with
  | nil => rfl
  | cons c cs ih =>
    have hc := h c (List.mem_cons_self c cs)
    have ihr := ih (fun x hx => h x (List.mem_cons_of_mem c hx))
    unfold locCols
    rw [hc, ihr]

/-- A successful slice carries exactly the requested names, in order. -/
theorem locCols_ok_colNames {B : DF} {names : List String} {sl : DF}
    (h : locCols B names = Except.ok sl) : colNames sl = names := by
  induction names generalizing sl with
  | nil =>
    unfold locCols at h
    injection h with h
    subst h
    rfl
  | cons c cs ih =>
    unfold locCols at h
    cases hfc : findCol B c with
    | none => rw [hfc] at h; simp at h
    | some v =>
      rw [hfc] at h
      cases hrest : locCols B cs with
      | error e => rw [hrest] at h; simp at h
      | ok rest =>
        rw [hrest] at h
        injection h with h
        subst h
        have := ih hrest
        simp only [colNames, List.map_cons] at this ⊢
        rw [this]

/-- Dropping unrelated labels does not change a lookup. -/
theorem findCol_dropCols (names : List String) (c : String) (hc : ¬ c ∈ names)
    (B : DF) :
    findCol (dropCols B names) c = findCol B c := by
  induction B with
  | nil => rfl
  | cons p rest ih =>
    simp only [dropCols]
    by_cases hmem : p.1 ∈ names
    · rw [if_pos hmem]
      have hpc : p.1 ≠ c := fun h => hc (h ▸ hmem)
      rw [ih]
      simp only [findCol]
      rw [if_neg hpc]
    · rw [if_neg hmem]
      simp only [findCol]
      by_cases hpc : p.1 = c
      · rw [if_pos hpc, if_pos hpc]
      · rw [if_neg hpc, if_neg hpc]
        exact ih

/-- A column outside the dropped set stays in the table. -/
theorem mem_dropCols (names : List String) (p : String × List Int) (B : DF) :
    p ∈ B → ¬ p.1 ∈ names → p ∈ dropCols B names := by
  induction B with
  | nil => intro hp _; cases hp
  | cons q rest ih =>
    intro hp hc
    simp only [dropCols]
    rcases List.mem_cons.mp hp with heq | hmem
    · subst heq
      rw [if_neg hc]
      exact List.mem_cons_self _ _
    · by_cases hq : q.1 ∈ names
      · rw [if_pos hq]
        exact ih hmem hc
      · rw [if_neg hq]
        exact List.mem_cons_of_mem _ (ih hmem hc)

/-- Lookup skips a left block that does not contain the label. -/
theorem findCol_append_right (b : DF) (c : String) (a : DF) :
    ¬ c ∈ colNames a → findCol (a ++ b) c = findCol b c := by
  induction a with
  | nil => intro _; rfl
  | cons p rest ih =>
    intro h
    have hpc : p.1 ≠ c := by
      intro hh
      apply h
      simp only [colNames, List.map_cons, List.mem_cons]
      exact Or.inl hh.symm
    have hrest : ¬ c ∈ colNames rest := by
      intro hh
      apply h
      simp only [colNames, List.map_cons, List.mem_cons]
      exact Or.inr (by simpa [colNames] using hh)
    rw [List.cons_append]
    simp only [findCol]
    rw [if_neg hpc]
    exact ih hrest

/-- On a table with unique column names, lookup of a member column returns
its values. -/
theorem findCol_of_mem_nodup (p : String × List Int) (B : DF) :
    (colNames B).Nodup → p ∈ B → findCol B p.1 = some p.2 := by
  induction B with
  | nil => intro _ hp; cases hp
  | cons q rest ih =>
    intro hnd hp
    simp only [colNames, List.map_cons, List.nodup_cons] at hnd
    rcases List.mem_cons.mp hp with heq | hmem
    · subst heq
      simp [findCol]
    · have hq : q.1 ≠ p.1 := by
        intro hh
        apply hnd.1
        rw [hh]
        exact List.mem_map.mpr ⟨p, hmem, rfl⟩
      simp only [findCol]
      rw [if_neg hq]
      exact ih hnd.2 hmem

/-- Renaming succeeds exactly on matching lengths, and then yields the new
names over the old values. -/
theorem setColNames_ok {df : DF} {names : List String} {out : DF}
    (h : setColNames df names = Except.ok out) :
    colNames out = names ∧ out = names.zip (df.map (fun p => p.2)) := by
  unfold setColNames at h
  split at h
  · injection h with h
    subst h
    refine ⟨?_, rfl⟩
    have hlen : names.length ≤ (df.map (fun p => p.2)).length := by
      simp only [List.length_map]
      omega
    simpa [colNames] using List.map_fst_zip names (df.map (fun p => p.2)) hlen
  · simp at h

/-- Lookup in a name-indexed generated table. -/
theorem findCol_map_pair (gf : String → List Int) (c : String) (names : List String) :
    c ∈ names → findCol (names.map (fun n => (n, gf n))) c = some (gf c) := by
  induction names with
  | nil => intro hc; cases hc
  | cons n rest ih =>
    intro hc
    rw [List.map_cons]
    simp only [findCol]
    rcases List.mem_cons.mp hc with heq | hmem
    · subst heq
      rw [if_pos rfl]
    · by_cases hn : n = c
      · subst hn
        rw [if_pos rfl]
      · rw [if_neg hn]
        exact ih hmem

/-- Reindexing produces exactly the requested names, in order. -/
theorem colNames_reindexCols (df : DF) (names : List String) :
    colNames (reindexCols df names) = names := by
  induction names with
  | nil => rfl
  | cons c cs ih =>
    simp only [colNames, reindexCols, List.map_cons] at ih ⊢
    rw [ih]

/-!
Claims C1, C2, C3.
-/

/-- C1: for a wrapper fitted on table A (freezing `transform_column_ = tc`)
and any table B containing all frozen columns on which `transform`
succeeds: (1) the frozen list is exactly the fit-time resolution against A
— `transform` re-slices by it and never re-resolves the selector against
B; (2) the slice handed to the wrapped transformer, `locCols B tc`,
depends only on B's values at the frozen columns, so extra columns of B
cannot influence it; (3) every column of B outside the frozen list appears
untouched (same name, same values) in the output table. -/
theorem wrapper_fit_transform_stability
    (w : DataFrameTransformer) (A B : DF) (tc : List String) (out : DF)
    (hfit : w.fit A = Except.ok tc)
    (hnodupB : (colNames B).Nodup)
    (hout : w.transform tc B = Except.ok out) :
    _set_columns_to_transform w.column_type_sep w.transform_column A = Except.ok tc
    ∧ (∀ B' : DF, (∀ c ∈ tc, findCol B' c = findCol B c) →
        locCols B' tc = locCols B tc)
    ∧ (∀ p : String × List Int, p ∈ B → ¬ p.1 ∈ tc → p ∈ out) := by
  refine ⟨?_, fun B' h => locCols_congr B B' tc h, ?_⟩
  · unfold DataFrameTransformer.fit at hfit
    split at hfit
    · simp at hfit
    · rename_i tc' heq
      split at hfit
      · simp at hfit
      · injection hfit with hfit
        subst hfit
        exact heq
  · intro p hp hptc
    have hmemrest : p ∈ dropCols B tc := mem_dropCols tc p B hp hptc
    unfold DataFrameTransformer.transform at hout
    split at hout
    · simp at hout
    · rename_i X_transform hloc
      have hcn : colNames X_transform = tc := locCols_ok_colNames hloc
      split at hout
      · -- returned_features = "same"
        split at hout
        · simp at hout
        · rename_i Xt hset
          injection hout with hout
          subst hout
          have hXt : colNames Xt = colNames X_transform := (setColNames_ok hset).1
          have h1 : findCol B p.1 = some p.2 := findCol_of_mem_nodup p B hnodupB hp
          have h2 : findCol (dropCols B tc) p.1 = some p.2 := by
            rw [findCol_dropCols tc p.1 hptc B]
            exact h1
          have hnotXt : ¬ p.1 ∈ colNames Xt := by
            rw [hXt, hcn]
            exact hptc
          have hfind : findCol (Xt ++ dropCols B tc) p.1 = some p.2 := by
            rw [findCol_append_right (dropCols B tc) p.1 Xt hnotXt]
            exact h2
          have hpB : p.1 ∈ colNames B := List.mem_map.mpr ⟨p, hp, rfl⟩
          unfold reindexCols
          refine List.mem_map.mpr ⟨p.1, hpB, ?_⟩
          rw [hfind]
          rfl
      · split at hout
        · -- returned_features = "subset"
          split at hout
          · simp at hout
          · split at hout
            · simp at hout
            · split at hout
              · simp at hout
              · rename_i Xt hset
                injection hout with hout
                subst hout
                exact List.mem_append.mpr (Or.inr hmemrest)
        · split at hout
          · -- returned_features = "unknown"
            split at hout
            · simp at hout
            · rename_i Xt hset
              injection hout with hout
              subst hout
              exact List.mem_append.mpr (Or.inr hmemrest)
          · split at hout
            · -- returned_features = "unknown_same_type"
              split at hout
              · simp at hout
              · split at hout
                · simp at hout
                · rename_i Xt hset
                  injection hout with hout
                  subst hout
                  exact List.mem_append.mpr (Or.inr hmemrest)
            · split at hout
              · -- returned_features = "from_transformer"
                injection hout with hout
                subst hout
                exact List.mem_append.mpr (Or.inl hmemrest)
              · simp at hout

/-- C2: for a fitted wrapper with `returned_features = 'same'` and a table X
whose slice the wrapped transformer maps to the same number of columns,
`transform` succeeds, the output carries exactly X's column names in X's
order (the transformed slice keeps the slice names, is concatenated with
the untouched rest and reindexed to X's column order), and every
non-selected column keeps its values. -/
theorem same_policy_preserves_columns
    (w : DataFrameTransformer) (A X : DF) (tc : List String) (sl : DF)
    (hpol : w.returned_features = "same")
    (_hfit : w.fit A = Except.ok tc)
    (hnodup : (colNames X).Nodup)
    (hloc : locCols X tc = Except.ok sl)
    (hshape : (w.transformer.transformOut sl).length = tc.length) :
    ∃ out, w.transform tc X = Except.ok out
      ∧ colNames out = colNames X
      ∧ (∀ p : String × List Int, p ∈ X → ¬ p.1 ∈ tc → findCol out p.1 = some p.2) := by
  have hcn : colNames sl = tc := locCols_ok_colNames hloc
  have hlen : (wrappedOutput w sl).length = (colNames sl).length := by
    unfold wrappedOutput
    rw [List.length_map, List.enum_length, hcn]
    exact hshape
  have hset : setColNames (wrappedOutput w sl) (colNames sl)
      = Except.ok ((colNames sl).zip ((wrappedOutput w sl).map (fun p => p.2))) := by
    unfold setColNames
    rw [if_pos hlen]
  have hXtnames :
      colNames ((colNames sl).zip ((wrappedOutput w sl).map (fun p => p.2)))
        = colNames sl := by
    have hle : (colNames sl).length ≤ ((wrappedOutput w sl).map (fun p => p.2)).length := by
      rw [List.length_map]
      omega
    simpa [colNames] using
      List.map_fst_zip (colNames sl) ((wrappedOutput w sl).map (fun p => p.2)) hle
  refine ⟨reindexCols
      (((colNames sl).zip ((wrappedOutput w sl).map (fun p => p.2)))
        ++ dropCols X tc) (colNames X), ?_, ?_, ?_⟩
  · unfold DataFrameTransformer.transform
    simp only [hloc]
    rw [if_pos hpol]
    simp only [hset]
  · exact colNames_reindexCols _ _
  · intro p hp hptc
    have h1 : findCol X p.1 = some p.2 := findCol_of_mem_nodup p X hnodup hp
    have h2 : findCol (dropCols X tc) p.1 = some p.2 := by
      rw [findCol_dropCols tc p.1 hptc X]
      exact h1
    have hnotXt :
        ¬ p.1 ∈ colNames ((colNames sl).zip ((wrappedOutput w sl).map (fun p => p.2))) := by
      rw [hXtnames, hcn]
      exact hptc
    have hfind :
        findCol (((colNames sl).zip ((wrappedOutput w sl).map (fun p => p.2)))
          ++ dropCols X tc) p.1 = some p.2 := by
      rw [findCol_append_right (dropCols X tc) p.1 _ hnotXt]
      exact h2
    have hpX : p.1 ∈ colNames X := List.mem_map.mpr ⟨p, hp, rfl⟩
    unfold reindexCols
    rw [findCol_map_pair _ p.1 (colNames X) hpX, hfind]
    rfl

/-- Witness for C1: a wrapper fitted on a one-column table A and transformed
on a two-column superset table B — the fit-time resolution froze `["a"]`,
the slice of B ignores the extra confound column, and that column passes
through to the output untouched. -/
theorem wrapper_fit_transform_stability_witness :
    _set_columns_to_transform "__:type:__" (TCSpec.str "continuous") [("a", [1])]
      = Except.ok ["a"]
    ∧ locCols [("a", [5])] ["a"]
        = locCols [("a", [5]), ("b__:type:__confound", [7])] ["a"]
    ∧ ("b__:type:__confound", ([7] : List Int))
        ∈ ([("a", [6]), ("b__:type:__confound", [7])] : DF) := by
  have h :=
    wrapper_fit_transform_stability sameWrapper
      [("a", [1])] [("a", [5]), ("b__:type:__confound", [7])] ["a"]
      [("a", [6]), ("b__:type:__confound", [7])]
      rfl (by decide) rfl
  exact ⟨h.1, h.2.1 [("a", [5])] (by decide),
    h.2.2 ("b__:type:__confound", [7]) (by decide) (by decide)⟩

/-- Witness for C2: the `same` policy on a concrete two-column table returns
a table with the same column names in the same order, the untouched column
keeping its values. -/
theorem same_policy_preserves_columns_witness :
    ∃ out,
      DataFrameTransformer.transform sameWrapper ["a"]
        [("a", [5]), ("b__:type:__confound", [7])] = Except.ok out
      ∧ colNames out = colNames [("a", [5]), ("b__:type:__confound", [7])]
      ∧ findCol out "b__:type:__confound" = some [7] := by
  obtain ⟨out, h1, h2, h3⟩ :=
    same_policy_preserves_columns sameWrapper
      [("a", [1])] [("a", [5]), ("b__:type:__confound", [7])] ["a"] [("a", [5])]
      rfl rfl (by decide) rfl rfl
  exact ⟨out, h1, h2, h3 ("b__:type:__confound", [7]) (by decide) (by decide)⟩

/-- C3 (code bug): the `unknown_same_type` guard matches the claim — it
raises exactly for the keywords `all` and `all_features` and for a list of
more than one column — but for an accepted single-type selector the policy
does not tag the generated columns with the shared input tag: the source
computes `_get_column_type` over the stringified positional names of the
transformed output (which contain no separator), so the tag is always
`continuous`.  Here a `confound`-selector slice (input tag `confound`, as
the third conjunct shows) yields a generated column tagged `continuous`. -/
theorem unknown_same_type_tag_not_inherited :
    DataFrameTransformer.fit pcaConfoundWrapper
      [("c__:type:__confound", [1, 2]), ("a", [3, 4])]
      = Except.ok ["c__:type:__confound"]
    ∧ DataFrameTransformer.transform pcaConfoundWrapper
        ["c__:type:__confound"]
        [("c__:type:__confound", [1, 2]), ("a", [3, 4])]
      = Except.ok [("pca_component:0__:type:__continuous", [1, 2]), ("a", [3, 4])]
    ∧ _get_column_type "__:type:__" "c__:type:__confound" = "confound"
    ∧ DataFrameTransformer.transform pcaAllWrapper
        ["c__:type:__confound", "a"]
        [("c__:type:__confound", [1, 2]), ("a", [3, 4])]
      = Except.error "HeterogeneousTypePolicy"
    ∧ DataFrameTransformer.transform pcaListWrapper
        ["c__:type:__confound", "a"]
        [("c__:type:__confound", [1, 2]), ("a", [3, 4])]
      = Except.error "HeterogeneousTypePolicy" :=
  ⟨rfl, rfl, rfl, rfl, rfl⟩
